import Mathlib

/-!
Verification of the wgpu utility layer against its specification.

We give a shallow embedding of the relevant functions:

* `make_spirv_raw` (src/wgpu/src/util/mod.rs): the SPIR-V binary-module
  normalizer.  Machine `u32` words are modelled as `Nat` values below `2^32`;
  the byte buffer is a `List Nat` of byte values; the Rust `assert!` failures
  are modelled as `Except` errors (the documented failure modes
  `MalformedModule` for size violations and `BadMagic` for a wrong leading
  word).  The source chooses between a zero-copy reinterpretation of the
  buffer (when the pointer is 4-byte aligned) and a copy into a fresh
  allocation; alignment is a property of the ambient allocator, so it enters
  the embedding as an explicit `aligned : Bool` parameter.
* `pipeline_cache_key` (same file): cache-key derivation from an
  `AdapterInfo`.
* `DownloadBuffer.read_buffer` (same file): embedded as the trace of GPU API
  operations the body performs, plus the completion closure handed to
  `map_async`.
* the external-GL-context adoption state machine of
  src/wgpu-hal/examples/raw-gles.rs: the `App` struct with its `resumed` and
  `suspended` winit handlers, with `panic!`/failed `assert!` modelled as a
  step returning `none`.
-/

namespace Wgpu

/-! ## SPIR-V module normalizer (`make_spirv_raw`) -/

/-- The SPIR-V magic constant `0x0723_0203` from `make_spirv_raw`. -/
def MAGIC_NUMBER : Nat := 0x07230203

/-- `u32::swap_bytes` on a word modelled as a `Nat` (meaningful for
words below `2^32`). -/
def swapBytes (w : Nat) : Nat :=
  (w % 256) * 16777216 + (w / 256 % 256) * 65536 +
    (w / 65536 % 256) * 256 + (w / 16777216 % 256)

/-- Assemble one native (little-endian) `u32` from four bytes. -/
def word32 (b0 b1 b2 b3 : Nat) : Nat :=
  b0 + b1 * 256 + b2 * 65536 + b3 * 16777216

/-- Reinterpret a byte buffer as native `u32` words
(`data.align_to::<u32>()` on the aligned path): consecutive groups of four
bytes become one word; a trailing fragment shorter than a word is dropped
(the source asserts it away before this point). -/
def toWords : List Nat → List Nat
  | b0 :: b1 :: b2 :: b3 :: rest => word32 b0 b1 b2 b3 :: toWords rest
  | _ => []

/-- `core::ptr::copy_nonoverlapping(src, dst, src.len())` on byte buffers:
the first `src.length` bytes of `dst` are overwritten by `src`. -/
def copyNonoverlapping (src dst : List Nat) : List Nat :=
  src ++ dst.drop src.length

/-- The unaligned path of `make_spirv_raw`: allocate
`vec![0u32; data.len() / 4]` (i.e. `4 * (data.len() / 4)` zero bytes),
copy the input bytes over it, and reinterpret as words. -/
def toWordsCopy (data : List Nat) : List Nat :=
  toWords (copyNonoverlapping data (List.replicate (4 * (data.length / 4)) 0))

/-- The word view of the input buffer: in place when 4-byte aligned,
through a fresh allocation otherwise. -/
def nativeWords (aligned : Bool) (data : List Nat) : List Nat :=
  if aligned then toWords data else toWordsCopy data

/-- The failure modes of the normalizer: the size assertions
(`MalformedModule`) and the final magic-number check (`BadMagic`, carrying
the offending leading word). -/
inductive SpirVError where
  | MalformedModule : SpirVError
  | BadMagic : Nat → SpirVError
deriving DecidableEq

/-- The endianness-fixing step of `make_spirv_raw`: if word 0 equals the
byte-swapped magic, every word of the buffer is byte-swapped. -/
def swappedWords (words : List Nat) : List Nat :=
  if words.headD 0 = swapBytes MAGIC_NUMBER then
    words.map swapBytes
  else
    words

/-- The final magic check of `make_spirv_raw`: word 0 must equal the
native magic, else the module is rejected with `BadMagic`. -/
def checkMagic (words : List Nat) : Except SpirVError (List Nat) :=
  if words.headD 0 = MAGIC_NUMBER then
    .ok words
  else
    .error (.BadMagic (words.headD 0))

/-- `make_spirv_raw` from src/wgpu/src/util/mod.rs.  The input length must
be a non-zero multiple of 4; the buffer is viewed as native words (in place
or via a copy depending on alignment); if word 0 is the byte-swapped magic,
every word is byte-swapped; finally word 0 must equal the native magic. -/
def make_spirv_raw (aligned : Bool) (data : List Nat) :
    Except SpirVError (List Nat) :=
  if data.length % 4 ≠ 0 then
    .error .MalformedModule
  else if data.length = 0 then
    .error .MalformedModule
  else
    checkMagic (swappedWords (nativeWords aligned data))

/-- Serialize one word to four native (little-endian) bytes. -/
def bytesOfWord (w : Nat) : List Nat :=
  [w % 256, w / 256 % 256, w / 65536 % 256, w / 16777216 % 256]

/-- Serialize a word sequence to a native byte buffer. -/
def serializeWords (ws : List Nat) : List Nat :=
  (ws.map bytesOfWord).flatten

/-! ## Pipeline-cache key derivation (`pipeline_cache_key`) -/

/-- `wgt::Backend`: the backend families exposed by the interface type
`wgt::AdapterInfo` that `pipeline_cache_key` matches on. -/
inductive Backend where
  | Noop : Backend
  | Vulkan : Backend
  | Metal : Backend
  | Dx12 : Backend
  | Gl : Backend
  | BrowserWebGpu : Backend
deriving DecidableEq

/-- `wgt::DeviceType`. -/
inductive DeviceType where
  | Other : DeviceType
  | IntegratedGpu : DeviceType
  | DiscreteGpu : DeviceType
  | VirtualGpu : DeviceType
  | Cpu : DeviceType
deriving DecidableEq

/-- `wgt::AdapterInfo`: the adapter description handed to
`pipeline_cache_key`; `vendor` and `device` are `u32` identifiers. -/
structure AdapterInfo where
  name : String
  vendor : Nat
  device : Nat
  device_type : DeviceType
  driver : String
  driver_info : String
  backend : Backend
deriving DecidableEq

/-- The string built by the `Backend::Vulkan` arm of `pipeline_cache_key`:
`format!("wgpu_pipeline_cache_vulkan_{}_{}", vendor, device)`. -/
def vulkanCacheKey (vendor device : Nat) : String :=
  "wgpu_pipeline_cache_vulkan_" ++ toString vendor ++ "_" ++ toString device

/-- `pipeline_cache_key` from src/wgpu/src/util/mod.rs. -/
def pipeline_cache_key (adapter_info : AdapterInfo) : Option String :=
  match adapter_info.backend with
  | .Vulkan => some (vulkanCacheKey adapter_info.vendor adapter_info.device)
  | _ => none

/-! ## `DownloadBuffer.read_buffer` -/

/-- `wgt::BufferUsages::MAP_READ` (bit 0). -/
def MAP_READ : Nat := 1

/-- `wgt::BufferUsages::MAP_WRITE` (bit 1). -/
def MAP_WRITE : Nat := 2

/-- `wgt::BufferUsages::COPY_SRC` (bit 2). -/
def COPY_SRC : Nat := 4

/-- `wgt::BufferUsages::COPY_DST` (bit 3). -/
def COPY_DST : Nat := 8

/-- The fields of `wgt::BufferDescriptor` that `read_buffer` fills in
(the label is always `None` there and is omitted). -/
structure BufferDescriptor where
  size : Nat
  usage : Nat
  mapped_at_creation : Bool
deriving DecidableEq

/-- `wgpu::MapMode`. -/
inductive MapMode where
  | Read : MapMode
  | Write : MapMode
deriving DecidableEq

/-- The buffer-usage bit a map mode requires on the buffer being mapped. -/
def mapModeUsage : MapMode → Nat
  | .Read => MAP_READ
  | .Write => MAP_WRITE

/-- One GPU-API operation performed by the body of
`DownloadBuffer::read_buffer`, in program order. -/
inductive ReadBufferOp where
  | createBuffer : BufferDescriptor → ReadBufferOp
  | createCommandEncoder : ReadBufferOp
  | copyBufferToBuffer : Nat → Nat → Nat → ReadBufferOp
  | finishEncoder : ReadBufferOp
  | submit : ReadBufferOp
  | mapAsync : MapMode → ReadBufferOp
deriving DecidableEq

/-- The trace of GPU-API operations performed by
`DownloadBuffer::read_buffer` for a source slice at `offset` with `size`
bytes: create the staging buffer, encode a copy from the source slice to
offset 0 of the staging buffer, submit, then request an asynchronous
read-mapping of the staging buffer. -/
def read_buffer (offset size : Nat) : List ReadBufferOp :=
  [ ReadBufferOp.createBuffer
      { size := size
        usage := COPY_DST ||| MAP_READ
        mapped_at_creation := false },
    ReadBufferOp.createCommandEncoder,
    ReadBufferOp.copyBufferToBuffer offset 0 size,
    ReadBufferOp.finishEncoder,
    ReadBufferOp.submit,
    ReadBufferOp.mapAsync MapMode.Read ]

/-- `wgpu::BufferAsyncError`: an opaque mapping failure. -/
inductive BufferAsyncError where
  | bufferAsyncError : BufferAsyncError
deriving DecidableEq

/-- One invocation of the user callback handed to `read_buffer`: either
the error, or a `DownloadBuffer` whose mapped range is the half-open byte
interval carried here. -/
inductive MapCallbackArg where
  | err : BufferAsyncError → MapCallbackArg
  | ok : Nat → Nat → MapCallbackArg
deriving DecidableEq

/-- The closure `read_buffer` passes to `map_async`, given the map result
reported at completion: it returns the list of user-callback invocations it
performs together with the mapped range it takes from the staging buffer
(`none` when `get_mapped_range` is never called).  On an error it forwards
the error and returns early; otherwise it takes the mapped range
`0..size` and hands the user the resulting `DownloadBuffer`. -/
def mapCompletion (size : Nat) (result : Except BufferAsyncError Unit) :
    List MapCallbackArg × Option (Nat × Nat) :=
  match result with
  | .error e => ([MapCallbackArg.err e], none)
  | .ok () => ([MapCallbackArg.ok 0 size], some (0, size))

/-! ## External GL context adoption (wgpu-hal/examples/raw-gles.rs)

The example's `App` holds at most one native GL context, either in
`state` (current, together with the window surface and window) or in
`not_current_gl_context` (not current).  Native objects are modelled by
identity tags (`Nat`); the `exposed` adapter slot is tracked by presence
only.  A failed `unwrap`/`assert!` aborts the handler, modelled by the
handler returning `none`.  Creation of fresh window/surface objects by
glutin is modelled by identity tags supplied as inputs. -/

/-- The payload of `App::state`: the current context with its surface and
window. -/
structure CurrentState where
  context : Nat
  surface : Nat
  window : Nat
deriving DecidableEq

/-- The `App` struct of raw-gles.rs (the `gl_config` field carries no
state relevant to the context machine and is omitted). -/
structure App where
  state : Option CurrentState
  exposed : Bool
  not_current_gl_context : Option Nat
  window : Option Nat
deriving DecidableEq

/-- The winit lifecycle events the context machine reacts to. -/
inductive Event where
  | resumed : Event
  | suspended : Event
deriving DecidableEq

/-- Externally visible native-API actions a handler can perform.
`createContext`/`destroyContext` are performed by `main` before the event
loop runs (and by drop glue after it), never by the adoption handlers. -/
inductive Action where
  | createContext : Action
  | destroyContext : Action
  | createWindowSurface : Action
  | makeCurrent : Action
  | newExternal : Action
  | makeNotCurrent : Action
deriving DecidableEq

/-- `App::resumed`: take (or finalize) the window, create a window
surface, take the not-current context (`unwrap`: fails if absent) and make
it current, create the wgpu-hal adapter via `new_external` if not yet
present, then store the current triple asserting the slot was empty. -/
def resumed (freshSurface freshWindow : Nat) (a : App) :
    Option (App × List Action) :=
  let window := a.window.getD freshWindow
  match a.not_current_gl_context with
  | none => none
  | some ctx =>
    match a.state with
    | some _ => none
    | none =>
      some
        ({ state := some { context := ctx, surface := freshSurface,
                           window := window }
           exposed := true
           not_current_gl_context := none
           window := none },
         [Action.createWindowSurface, Action.makeCurrent] ++
           (if a.exposed then [] else [Action.newExternal]))

/-- `App::suspended`: take the current triple (`unwrap`: fails if absent),
make the context not current, and store it asserting the slot was
empty. -/
def suspended (a : App) : Option (App × List Action) :=
  match a.state with
  | none => none
  | some cur =>
    match a.not_current_gl_context with
    | some _ => none
    | none =>
      some
        ({ a with state := none, not_current_gl_context := some cur.context },
         [Action.makeNotCurrent])

/-- One step of the windowing-event handler. -/
def step (freshSurface freshWindow : Nat) (a : App) : Event →
    Option (App × List Action)
  | .resumed => resumed freshSurface freshWindow a
  | .suspended => suspended a

/-- The context machine is in exactly one of the states
`NotCurrent` / `Current(surface, window)`. -/
def wf (a : App) : Prop :=
  (a.state.isSome = true ∧ a.not_current_gl_context = none) ∨
    (a.state = none ∧ a.not_current_gl_context.isSome = true)

/-- The identities of all native contexts the app holds, current or
not. -/
def contexts (a : App) : List Nat :=
  (a.state.map CurrentState.context).toList ++ a.not_current_gl_context.toList

/-- A sample app as `main` builds it: no current context, adapter not yet
created, one not-current context (tag 7), a pre-created window (tag 3). -/
def appStart : App :=
  { state := none, exposed := false, not_current_gl_context := some 7,
    window := some 3 }

/-- The app after the first `resumed` event on `appStart` with a fresh
surface tag 1. -/
def appResumed : App :=
  { state := some { context := 7, surface := 1, window := 3 },
    exposed := true, not_current_gl_context := none, window := none }

/-- The native actions of that first `resumed` step. -/
def resumedActs : List Action :=
  [Action.createWindowSurface, Action.makeCurrent, Action.newExternal]

/-! ## Helper lemmas on the SPIR-V normalizer -/

theorem toWords_length : ∀ l : List Nat, (toWords l).length = l.length / 4
  | [] => by simp [toWords]
  | [_] => by simp [toWords]
  | [_, _] => by simp [toWords]
  | [_, _, _] => by simp [toWords]
  | b0 :: b1 :: b2 :: b3 :: rest => by
      rw [toWords]
      simp only [List.length_cons]
      rw [toWords_length rest]
      omega

theorem toWordsCopy_eq {l : List Nat} (h : l.length % 4 = 0) :
    toWordsCopy l = toWords l := by
  unfold toWordsCopy copyNonoverlapping
  have h4 : 4 * (l.length / 4) = l.length := by omega
  rw [h4, List.drop_replicate]
  simp

theorem nativeWords_eq {l : List Nat} (aligned : Bool)
    (h : l.length % 4 = 0) : nativeWords aligned l = toWords l := by
  cases aligned <;> simp [nativeWords, toWordsCopy_eq h]

theorem serializeWords_length (ws : List Nat) :
    (serializeWords ws).length = 4 * ws.length := by
  induction ws with
  | nil => rfl
  | cons x t ih =>
      simp only [serializeWords, List.map_cons, List.flatten_cons] at ih ⊢
      simp [bytesOfWord, ih]
      omega

theorem word32_bytesOfWord {x : Nat} (h : x < 2 ^ 32) :
    word32 (x % 256) (x / 256 % 256) (x / 65536 % 256)
      (x / 16777216 % 256) = x := by
  unfold word32
  omega

theorem toWords_serializeWords {ws : List Nat}
    (h : ∀ x ∈ ws, x < 2 ^ 32) : toWords (serializeWords ws) = ws := by
  induction ws with
  | nil => rfl
  | cons x t ih =>
      have hx : x < 2 ^ 32 := h x (List.mem_cons_self x t)
      have ht : ∀ y ∈ t, y < 2 ^ 32 := fun y hy => h y (List.mem_cons_of_mem x hy)
      simp only [serializeWords, List.map_cons, List.flatten_cons, bytesOfWord,
        List.cons_append, List.nil_append]
      rw [toWords]
      rw [word32_bytesOfWord hx]
      simp only [serializeWords] at ih
      rw [ih ht]

theorem swapBytes_lt (x : Nat) : swapBytes x < 2 ^ 32 := by
  unfold swapBytes
  omega

theorem swapBytes_digits {b0 b1 b2 b3 : Nat} (h0 : b0 < 256) (h1 : b1 < 256)
    (h2 : b2 < 256) (h3 : b3 < 256) :
    swapBytes (b0 + b1 * 256 + b2 * 65536 + b3 * 16777216) =
      b3 + b2 * 256 + b1 * 65536 + b0 * 16777216 := by
  unfold swapBytes
  omega

theorem swapBytes_swapBytes {x : Nat} (h : x < 2 ^ 32) :
    swapBytes (swapBytes x) = x := by
  obtain ⟨b0, b1, b2, b3, h0, h1, h2, h3, hx⟩ :
      ∃ b0 b1 b2 b3, b0 < 256 ∧ b1 < 256 ∧ b2 < 256 ∧ b3 < 256 ∧
        x = b0 + b1 * 256 + b2 * 65536 + b3 * 16777216 :=
    ⟨x % 256, x / 256 % 256, x / 65536 % 256, x / 16777216 % 256,
      by omega, by omega, by omega, by omega, by omega⟩
  subst hx
  rw [swapBytes_digits h0 h1 h2 h3, swapBytes_digits h3 h2 h1 h0]

theorem make_spirv_raw_valid {data : List Nat} (aligned : Bool)
    (h4 : data.length % 4 = 0) (h0 : data.length ≠ 0) :
    make_spirv_raw aligned data = checkMagic (swappedWords (toWords data)) := by
  unfold make_spirv_raw
  rw [if_neg (by omega : ¬data.length % 4 ≠ 0), if_neg h0,
    nativeWords_eq aligned h4]

theorem toWords_ne_nil {data : List Nat} (h4 : data.length % 4 = 0)
    (h0 : data.length ≠ 0) : toWords data ≠ [] := by
  have hlen := toWords_length data
  intro hcontra
  rw [hcontra] at hlen
  simp at hlen
  omega

/-! ## Claim theorems -/

/-- C1: for every byte buffer `b` with `len(b) % 4 = 0` and `len(b) > 0`
whose first 32-bit word equals the magic `0x07230203` in native or
byte-swapped form, `make_spirv_raw` returns a word sequence of length
`len(b) / 4` whose word 0 equals the native magic, on either alignment
path. -/
theorem c1_normalizer_accepts_magic (aligned : Bool) (data : List Nat)
    (h4 : data.length % 4 = 0) (h0 : data.length ≠ 0)
    (hm : (toWords data).headD 0 = MAGIC_NUMBER ∨
      (toWords data).headD 0 = swapBytes MAGIC_NUMBER) :
    ∃ ws, make_spirv_raw aligned data = .ok ws ∧
      ws.length = data.length / 4 ∧ ws.headD 0 = MAGIC_NUMBER := by
  have hlen := toWords_length data
  have hne := toWords_ne_nil h4 h0
  obtain ⟨w0, rest, hcons⟩ := List.exists_cons_of_ne_nil hne
  rw [make_spirv_raw_valid aligned h4 h0]
  cases hm with
  | inl hm =>
      refine ⟨toWords data, ?_, hlen, hm⟩
      have hns : (toWords data).headD 0 ≠ swapBytes MAGIC_NUMBER := by
        rw [hm]; decide
      rw [swappedWords, if_neg hns, checkMagic, if_pos hm]
  | inr hm =>
      refine ⟨(toWords data).map swapBytes, ?_, by simpa using hlen, ?_⟩
      · rw [swappedWords, if_pos hm, checkMagic, if_pos ?h]
        case h =>
          rw [hcons] at hm ⊢
          simp only [List.headD_cons] at hm ⊢
          simp only [List.map_cons, List.headD_cons, hm]
          decide
      · rw [hcons] at hm ⊢
        simp only [List.headD_cons] at hm ⊢
        simp only [List.map_cons, List.headD_cons, hm]
        decide

/-- C1 witness: the four-byte native-magic module is accepted with one
word equal to the magic. -/
theorem c1_witness :
    ∃ ws, make_spirv_raw true [0x03, 0x02, 0x23, 0x07] = .ok ws ∧
      ws.length = [0x03, 0x02, 0x23, 0x07].length / 4 ∧
      ws.headD 0 = MAGIC_NUMBER :=
  c1_normalizer_accepts_magic true [0x03, 0x02, 0x23, 0x07] (by decide)
    (by decide) (Or.inl (by decide))

/-- C2: the normalizer rejects every input whose length is zero or not a
multiple of 4 with `MalformedModule`, and rejects every correctly-sized
input whose first word is neither the magic nor its byte-swap with
`BadMagic`; no word sequence is produced in either case. -/
theorem c2_normalizer_rejects (aligned : Bool) (data : List Nat) :
    (data.length % 4 ≠ 0 ∨ data.length = 0 →
      make_spirv_raw aligned data = .error SpirVError.MalformedModule) ∧
    (data.length % 4 = 0 → data.length ≠ 0 →
      (toWords data).headD 0 ≠ MAGIC_NUMBER →
      (toWords data).headD 0 ≠ swapBytes MAGIC_NUMBER →
      make_spirv_raw aligned data =
        .error (SpirVError.BadMagic ((toWords data).headD 0))) := by
  constructor
  · intro h
    unfold make_spirv_raw
    rcases h with h | h
    · rw [if_pos h]
    · rw [h]
      simp
  · intro h4 h0 hm hs
    rw [make_spirv_raw_valid aligned h4 h0]
    rw [swappedWords, if_neg hs, checkMagic, if_neg hm]

/-- C2 witness: the empty buffer, a length-3 buffer and a wrong-magic
buffer are all rejected as claimed. -/
theorem c2_witness :
    make_spirv_raw true [] = .error SpirVError.MalformedModule ∧
    make_spirv_raw true [1, 2, 3] = .error SpirVError.MalformedModule ∧
    make_spirv_raw true [1, 2, 3, 4] =
      .error (SpirVError.BadMagic ((toWords [1, 2, 3, 4]).headD 0)) :=
  ⟨(c2_normalizer_rejects true []).1 (Or.inr (by decide)),
   (c2_normalizer_rejects true [1, 2, 3]).1 (Or.inl (by decide)),
   (c2_normalizer_rejects true [1, 2, 3, 4]).2 (by decide) (by decide)
     (by decide) (by decide)⟩

/-- C3: round-trip — byte-swapping every word of a valid native-endian
module (word 0 the native magic, non-empty, words below `2^32`) into a
byte buffer and normalizing that buffer returns exactly the original word
sequence. -/
theorem c3_round_trip (aligned : Bool) (w : List Nat) (hne : w ≠ [])
    (hmagic : w.headD 0 = MAGIC_NUMBER) (hbound : ∀ x ∈ w, x < 2 ^ 32) :
    make_spirv_raw aligned (serializeWords (w.map swapBytes)) = .ok w := by
  have hlen : (serializeWords (w.map swapBytes)).length = 4 * w.length := by
    rw [serializeWords_length, List.length_map]
  have h4 : (serializeWords (w.map swapBytes)).length % 4 = 0 := by omega
  have h0 : (serializeWords (w.map swapBytes)).length ≠ 0 := by
    have : w.length ≠ 0 := fun hc => hne (List.eq_nil_of_length_eq_zero hc)
    omega
  have hwords : toWords (serializeWords (w.map swapBytes)) = w.map swapBytes :=
    toWords_serializeWords (by
      intro x hx
      obtain ⟨y, _, hy⟩ := List.mem_map.mp hx
      rw [← hy]
      exact swapBytes_lt y)
  rw [make_spirv_raw_valid aligned h4 h0, hwords]
  obtain ⟨w0, rest, hcons⟩ := List.exists_cons_of_ne_nil hne
  rw [hcons] at hmagic
  simp only [List.headD_cons] at hmagic
  have hhead : ((w.map swapBytes).headD 0) = swapBytes MAGIC_NUMBER := by
    rw [hcons]
    simp [hmagic]
  rw [swappedWords, if_pos hhead, List.map_map]
  have hmapid : w.map (swapBytes ∘ swapBytes) = w := by
    have : ∀ x ∈ w, (swapBytes ∘ swapBytes) x = id x := by
      intro x hx
      simp [swapBytes_swapBytes (hbound x hx)]
    rw [List.map_congr_left this, List.map_id]
  rw [hmapid, checkMagic, if_pos ?hm]
  case hm =>
    rw [hcons]
    simpa using hmagic

/-- C3 witness: the two-word module `[magic, 5]` round-trips through
byte-swapped serialization. -/
theorem c3_witness :
    make_spirv_raw true (serializeWords ([MAGIC_NUMBER, 5].map swapBytes)) =
      .ok [MAGIC_NUMBER, 5] :=
  c3_round_trip true [MAGIC_NUMBER, 5] (by decide) (by decide)
    (by decide)

/-- C4: the normalizer's result is a function of the byte content only —
the in-place (aligned) path and the copy path agree on every input. -/
theorem c4_alignment_independent (data : List Nat) :
    make_spirv_raw true data = make_spirv_raw false data := by
  unfold make_spirv_raw
  by_cases h4 : data.length % 4 = 0
  · by_cases h0 : data.length = 0
    · simp only [if_neg (show ¬data.length % 4 ≠ 0 by omega), if_pos h0]
    · simp only [if_neg (show ¬data.length % 4 ≠ 0 by omega), if_neg h0,
        nativeWords_eq true h4, nativeWords_eq false h4]
  · simp only [if_pos (show data.length % 4 ≠ 0 by omega)]

/-- C5: `pipeline_cache_key` returns a key composed deterministically from
the adapter's vendor and device identifiers exactly for the Vulkan backend
family, and `none` for every other backend family. -/
theorem c5_cache_key_vulkan_only (info : AdapterInfo) :
    (info.backend = Backend.Vulkan →
      pipeline_cache_key info =
        some (vulkanCacheKey info.vendor info.device)) ∧
    (info.backend ≠ Backend.Vulkan → pipeline_cache_key info = none) := by
  constructor
  · intro h
    unfold pipeline_cache_key
    rw [h]
  · intro h
    unfold pipeline_cache_key
    cases hb : info.backend
    case Vulkan => exact absurd hb h
    all_goals rfl

/-- C5 witness: a Vulkan adapter with vendor 1 and device 2 gets the
derived key; the same adapter on the GL backend gets none. -/
theorem c5_witness :
    pipeline_cache_key
        ⟨"gpu", 1, 2, DeviceType.Other, "drv", "info", Backend.Vulkan⟩ =
      some (vulkanCacheKey 1 2) ∧
    pipeline_cache_key
        ⟨"gpu", 1, 2, DeviceType.Other, "drv", "info", Backend.Gl⟩ = none :=
  ⟨(c5_cache_key_vulkan_only
      ⟨"gpu", 1, 2, DeviceType.Other, "drv", "info", Backend.Vulkan⟩).1 rfl,
   (c5_cache_key_vulkan_only
      ⟨"gpu", 1, 2, DeviceType.Other, "drv", "info", Backend.Gl⟩).2
     (by decide)⟩

/-- C10: `pipeline_cache_key` depends only on the backend, vendor and
device fields — two adapter infos agreeing on those three agree on the
key, whatever their name, driver, driver_info and device_type — and every
produced key extends the fixed leading string
"wgpu_pipeline_cache_vulkan_". -/
theorem c10_cache_key_noninterference (a b : AdapterInfo)
    (hb : a.backend = b.backend) (hv : a.vendor = b.vendor)
    (hd : a.device = b.device) :
    pipeline_cache_key a = pipeline_cache_key b ∧
    ∀ s, pipeline_cache_key a = some s →
      ∃ rest, s = "wgpu_pipeline_cache_vulkan_" ++ rest := by
  constructor
  · unfold pipeline_cache_key vulkanCacheKey
    rw [hb, hv, hd]
  · intro s hs
    unfold pipeline_cache_key at hs
    cases hab : a.backend <;> rw [hab] at hs
    case Vulkan =>
      refine ⟨toString a.vendor ++ "_" ++ toString a.device, ?_⟩
      have hs2 : vulkanCacheKey a.vendor a.device = s := by
        injection hs
      rw [← hs2]
      unfold vulkanCacheKey
      simp [String.append_assoc]
    all_goals cases hs

/-- C10 witness: two Vulkan adapters differing in every field but
backend, vendor and device give the same key, and that key extends the
fixed leading string. -/
theorem c10_witness :
    pipeline_cache_key
        ⟨"a", 10, 20, DeviceType.DiscreteGpu, "d1", "i1", Backend.Vulkan⟩ =
      pipeline_cache_key
        ⟨"b", 10, 20, DeviceType.Cpu, "d2", "i2", Backend.Vulkan⟩ ∧
    ∀ s,
      pipeline_cache_key
          ⟨"a", 10, 20, DeviceType.DiscreteGpu, "d1", "i1",
            Backend.Vulkan⟩ = some s →
        ∃ rest, s = "wgpu_pipeline_cache_vulkan_" ++ rest :=
  c10_cache_key_noninterference
    ⟨"a", 10, 20, DeviceType.DiscreteGpu, "d1", "i1", Backend.Vulkan⟩
    ⟨"b", 10, 20, DeviceType.Cpu, "d2", "i2", Backend.Vulkan⟩
    rfl rfl rfl

/-- C8: every staging buffer created by `read_buffer` has the source
slice's size, usage exactly `COPY_DST ||| MAP_READ` and
`mapped_at_creation = false`, and every map request in the trace uses
`MapMode.Read`, whose required usage bit is included in the staging
buffer's creation usage. -/
theorem c8_staging_buffer_descriptor (offset size : Nat) :
    ∀ desc, ReadBufferOp.createBuffer desc ∈ read_buffer offset size →
      desc.size = size ∧ desc.usage = (COPY_DST ||| MAP_READ) ∧
      desc.mapped_at_creation = false ∧
      ∀ mode, ReadBufferOp.mapAsync mode ∈ read_buffer offset size →
        mode = MapMode.Read ∧
        mapModeUsage mode &&& desc.usage = mapModeUsage mode := by
  intro desc hdesc
  simp only [read_buffer, List.mem_cons, List.not_mem_nil, or_false,
    reduceCtorEq, false_or] at hdesc
  have hd := (ReadBufferOp.createBuffer.injEq _ _).mp hdesc
  subst hd
  refine ⟨rfl, rfl, rfl, ?_⟩
  intro mode hmode
  simp only [read_buffer, List.mem_cons, List.not_mem_nil, or_false,
    reduceCtorEq, false_or] at hmode
  have hm := (ReadBufferOp.mapAsync.injEq _ _).mp hmode
  subst hm
  refine ⟨rfl, ?_⟩
  show mapModeUsage MapMode.Read &&& (COPY_DST ||| MAP_READ) =
    mapModeUsage MapMode.Read
  decide

/-- C8 witness: in the trace for a 16-byte slice at offset 4, the created
staging descriptor is as claimed and the map request is a read. -/
theorem c8_witness :
    ({ size := 16, usage := COPY_DST ||| MAP_READ,
       mapped_at_creation := false } : BufferDescriptor).size = 16 ∧
    ({ size := 16, usage := COPY_DST ||| MAP_READ,
       mapped_at_creation := false } : BufferDescriptor).usage =
      (COPY_DST ||| MAP_READ) ∧
    ({ size := 16, usage := COPY_DST ||| MAP_READ,
       mapped_at_creation := false } : BufferDescriptor).mapped_at_creation
      = false ∧
    ∀ mode, ReadBufferOp.mapAsync mode ∈ read_buffer 4 16 →
      mode = MapMode.Read ∧
      mapModeUsage mode &&&
        ({ size := 16, usage := COPY_DST ||| MAP_READ,
           mapped_at_creation := false } : BufferDescriptor).usage =
        mapModeUsage mode :=
  c8_staging_buffer_descriptor 4 16
    { size := 16, usage := COPY_DST ||| MAP_READ,
      mapped_at_creation := false }
    (by decide)

/-- C9: the completion closure of `read_buffer` invokes the user callback
exactly once — with the error and without taking a mapped range when the
map result is an error, and otherwise with a `DownloadBuffer` whose
mapped range covers bytes `0..size` of the staging buffer. -/
theorem c9_callback_exactly_once (size : Nat)
    (result : Except BufferAsyncError Unit) :
    (mapCompletion size result).1.length = 1 ∧
    (∀ e, result = .error e →
      mapCompletion size result = ([MapCallbackArg.err e], none)) ∧
    (result = .ok () →
      mapCompletion size result =
        ([MapCallbackArg.ok 0 size], some (0, size))) := by
  cases result with
  | error e =>
      refine ⟨rfl, ?_, ?_⟩
      · intro e2 he
        injection he with he2
        subst he2
        rfl
      · intro h
        cases h
  | ok u =>
      cases u
      refine ⟨rfl, ?_, fun _ => rfl⟩
      intro e2 he
      cases he

/-- C9 witness: at size 4 the closure performs one callback in each of
the two completion cases, with the claimed payloads. -/
theorem c9_witness :
    (mapCompletion 4 (.ok ())).1.length = 1 ∧
    (∀ e, (Except.ok () : Except BufferAsyncError Unit) = .error e →
      mapCompletion 4 (.ok ()) = ([MapCallbackArg.err e], none)) ∧
    ((Except.ok () : Except BufferAsyncError Unit) = .ok () →
      mapCompletion 4 (.ok ()) =
        ([MapCallbackArg.ok 0 4], some (0, 4))) :=
  c9_callback_exactly_once 4 (.ok ())

/-- C7: the adoption flow's context machine — a successful handler step
starts and ends in exactly one of the states NotCurrent / Current; the
resumed handler is the only transition NotCurrent to Current and the
suspended handler the only transition Current to NotCurrent, each
requiring the destination slot to be empty; `new_external` is performed
only in a step that makes a context current; and the native contexts held
are exactly preserved, with no context creation or destruction action
performed by either handler. -/
theorem c7_context_state_machine (fs fw : Nat) (a a2 : App) (e : Event)
    (acts : List Action) (h : step fs fw a e = some (a2, acts)) :
    (wf a ∧ wf a2) ∧
    (e = Event.resumed → a.state = none ∧
      a.not_current_gl_context.isSome = true ∧
      a2.state.isSome = true ∧ a2.not_current_gl_context = none) ∧
    (e = Event.suspended → a.state.isSome = true ∧
      a.not_current_gl_context = none ∧
      a2.state = none ∧ a2.not_current_gl_context.isSome = true) ∧
    (Action.newExternal ∈ acts →
      e = Event.resumed ∧ a2.state.isSome = true) ∧
    contexts a2 = contexts a ∧
    (∀ act ∈ acts,
      act ≠ Action.createContext ∧ act ≠ Action.destroyContext) := by
  cases e with
  | resumed =>
      unfold step resumed at h
      cases hnc : a.not_current_gl_context with
      | none => rw [hnc] at h; simp at h
      | some ctx =>
          rw [hnc] at h
          cases hst : a.state with
          | some cur => rw [hst] at h; simp at h
          | none =>
              rw [hst] at h
              simp only [Option.some.injEq, Prod.mk.injEq] at h
              obtain ⟨ha2, hacts⟩ := h
              subst ha2
              subst hacts
              refine ⟨⟨Or.inr ⟨hst, by simp [hnc]⟩, Or.inl ⟨rfl, rfl⟩⟩,
                ?_, ?_, ?_, ?_, ?_⟩
              · intro _
                exact ⟨by simp [hst], by simp [hnc], rfl, rfl⟩
              · intro hcontra
                exact absurd hcontra (by decide)
              · intro _
                exact ⟨rfl, rfl⟩
              · simp [contexts, hnc, hst]
              · intro act hact
                cases hexp : a.exposed
                · rw [hexp] at hact
                  simp at hact
                  rcases hact with rfl | rfl | rfl <;>
                    exact ⟨by decide, by decide⟩
                · rw [hexp] at hact
                  simp at hact
                  rcases hact with rfl | rfl <;>
                    exact ⟨by decide, by decide⟩
  | suspended =>
      unfold step suspended at h
      cases hst : a.state with
      | none => rw [hst] at h; simp at h
      | some cur =>
          rw [hst] at h
          cases hnc : a.not_current_gl_context with
          | some ctx => rw [hnc] at h; simp at h
          | none =>
              rw [hnc] at h
              simp only [Option.some.injEq, Prod.mk.injEq] at h
              obtain ⟨ha2, hacts⟩ := h
              subst ha2
              subst hacts
              refine ⟨⟨Or.inl ⟨by simp [hst], hnc⟩, Or.inr ⟨rfl, rfl⟩⟩,
                ?_, ?_, ?_, ?_, ?_⟩
              · intro hcontra
                exact absurd hcontra (by decide)
              · intro _
                exact ⟨by simp [hst], by simp [hnc], rfl, rfl⟩
              · intro hmem
                simp at hmem
              · simp [contexts, hnc, hst]
              · intro act hact
                simp at hact
                subst hact
                exact ⟨by decide, by decide⟩

/-- C7 witness: the first `resumed` event on the app `main` builds makes
the context current, creates the adapter, and preserves the held
contexts. -/
theorem c7_witness :
    (wf appStart ∧ wf appResumed) ∧
    (Event.resumed = Event.resumed → appStart.state = none ∧
      appStart.not_current_gl_context.isSome = true ∧
      appResumed.state.isSome = true ∧
      appResumed.not_current_gl_context = none) ∧
    (Event.resumed = Event.suspended → appStart.state.isSome = true ∧
      appStart.not_current_gl_context = none ∧
      appResumed.state = none ∧
      appResumed.not_current_gl_context.isSome = true) ∧
    (Action.newExternal ∈ resumedActs →
      Event.resumed = Event.resumed ∧ appResumed.state.isSome = true) ∧
    contexts appResumed = contexts appStart ∧
    (∀ act ∈ resumedActs,
      act ≠ Action.createContext ∧ act ≠ Action.destroyContext) :=
  c7_context_state_machine 1 2 appStart appResumed Event.resumed
    resumedActs rfl

end Wgpu







